import Mathlib

/-!
Verification development for the manifold-robot trading bot.

Shallow embedding conventions:
* Rust `f64` values are modelled as exact rationals (`ℚ`); the code only
  subtracts, compares, negates and clamps probabilities, so the rational
  semantics matches the decision structure of the floating-point code.
* `u64` timestamps are `Nat`; Rust `saturating_sub` on `u64` coincides with
  truncated `Nat` subtraction.
* Fallible operations return `Option`/`Except`; a Rust panic is modelled as
  an explicit `none`/flag.
* `serde_json::from_str::<JsonPrediction>` (src/xai.rs) is modelled as a
  concrete JSON text parser (`jsonParse`) composed with a struct decoder
  (`decodeJsonPrediction`) that mirrors serde derive semantics: unknown
  object fields ignored, duplicate known fields rejected, `Option` fields
  accepting `null`/absence, struct-from-sequence accepted, trailing
  non-whitespace rejected.
-/

set_option maxRecDepth 100000

namespace ManifoldRobot

/-- JSON values (the subset of `serde_json::Value` structure needed here;
numbers are modelled as exact rationals). -/
inductive Json where
  | null : Json
  | bool (b : Bool) : Json
  | num (q : ℚ) : Json
  | str (s : String) : Json
  | arr (xs : List Json) : Json
  | obj (fields : List (String × Json)) : Json

/-- JSON whitespace characters. -/
def isJsonWs (c : Char) : Bool :=
  c = ' ' ∨ c = '\t' ∨ c = '\n' ∨ c = '\r'

/-- Drop leading JSON whitespace. -/
def dropWs : List Char → List Char
  | [] => []
  | c :: cs => if isJsonWs c then dropWs cs else c :: cs

/-- Value of a hexadecimal digit. -/
def hexDigit (c : Char) : Option Nat :=
  if '0' ≤ c ∧ c ≤ '9' then some (c.toNat - 48)
  else if 'a' ≤ c ∧ c ≤ 'f' then some (c.toNat - 87)
  else if 'A' ≤ c ∧ c ≤ 'F' then some (c.toNat - 55)
  else none

/-- Value of a decimal digit character. -/
def digitVal (c : Char) : Nat := c.toNat - 48

/-- Greedily take decimal digits from the head of the character list. -/
def takeDigits : List Char → List Nat × List Char
  | [] => ([], [])
  | c :: cs =>
    if c.isDigit then
      let r := takeDigits cs
      (digitVal c :: r.1, r.2)
    else ([], c :: cs)

/-- Interpret a digit list as a natural number (most significant first). -/
def digitsToNat (ds : List Nat) : Nat := ds.foldl (fun a d => 10 * a + d) 0

/-- `10 ^ n` as a rational. -/
def powTen (n : Nat) : ℚ := (10 : ℚ) ^ n

/-- Apply a decimal exponent to a rational. -/
def applyExp (q : ℚ) (e : Int) : ℚ :=
  if 0 ≤ e then q * powTen e.toNat else q / powTen (-e).toNat

/-- Parse the exponent tail of a JSON number (after `e`/`E`). -/
def parseExpTail (cs : List Char) : Option (Int × List Char) :=
  let p1 :=
    match cs with
    | '+' :: rest => (false, rest)
    | '-' :: rest => (true, rest)
    | _ => (false, cs)
  let p := takeDigits p1.2
  if p.1.isEmpty then none
  else some ((if p1.1 then -(digitsToNat p.1 : Int) else (digitsToNat p.1 : Int)), p.2)

/-- Parse the fraction/exponent tail of a JSON number, given sign and
integer part, and build the rational value. -/
def parseFracExp (neg : Bool) (ip : Nat) (cs : List Char) : Option (ℚ × List Char) :=
  let fracStep : Option (List Nat × List Char) :=
    match cs with
    | '.' :: rest =>
      let p := takeDigits rest
      if p.1.isEmpty then none else some (p.1, p.2)
    | _ => some ([], cs)
  match fracStep with
  | none => none
  | some (fds, cs2) =>
    let expStep : Option (Int × List Char) :=
      match cs2 with
      | 'e' :: rest => parseExpTail rest
      | 'E' :: rest => parseExpTail rest
      | _ => some (0, cs2)
    match expStep with
    | none => none
    | some (e, cs3) =>
      let base : ℚ := (ip : ℚ) + (digitsToNat fds : ℚ) / powTen fds.length
      let v := applyExp base e
      some (if neg then -v else v, cs3)

/-- Parse a JSON number (JSON grammar: optional minus, `0` or nonzero-led
digits, optional fraction, optional exponent). -/
def parseNumber (cs : List Char) : Option (ℚ × List Char) :=
  let p1 :=
    match cs with
    | '-' :: rest => (true, rest)
    | _ => (false, cs)
  match p1.2 with
  | [] => none
  | c :: rest =>
    if c = '0' then parseFracExp p1.1 0 rest
    else if c.isDigit then
      let p := takeDigits rest
      parseFracExp p1.1 (digitsToNat (digitVal c :: p.1)) p.2
    else none

/-- Parse the body of a JSON string after the opening quote; returns the
decoded characters and the remainder after the closing quote. Fuelled by the
number of remaining characters (each step consumes at least one). Surrogate
pairs in `\u` escapes are not paired (irrelevant to the claims). -/
def parseStrBody : Nat → List Char → Option (List Char × List Char)
  | 0, _ => none
  | _ + 1, [] => none
  | fuel + 1, c :: cs =>
    if c = '"' then some ([], cs)
    else if c = '\\' then
      match cs with
      | [] => none
      | e :: cs1 =>
        if e = '"' ∨ e = '\\' ∨ e = '/' then
          (parseStrBody fuel cs1).map (fun p => (e :: p.1, p.2))
        else if e = 'b' then (parseStrBody fuel cs1).map (fun p => (Char.ofNat 8 :: p.1, p.2))
        else if e = 'f' then (parseStrBody fuel cs1).map (fun p => (Char.ofNat 12 :: p.1, p.2))
        else if e = 'n' then (parseStrBody fuel cs1).map (fun p => ('\n' :: p.1, p.2))
        else if e = 'r' then (parseStrBody fuel cs1).map (fun p => ('\r' :: p.1, p.2))
        else if e = 't' then (parseStrBody fuel cs1).map (fun p => ('\t' :: p.1, p.2))
        else if e = 'u' then
          match cs1 with
          | h1 :: h2 :: h3 :: h4 :: cs2 =>
            match hexDigit h1, hexDigit h2, hexDigit h3, hexDigit h4 with
            | some a, some b, some c2, some d2 =>
              (parseStrBody fuel cs2).map
                (fun p => (Char.ofNat (((a * 16 + b) * 16 + c2) * 16 + d2) :: p.1, p.2))
            | _, _, _, _ => none
          | _ => none
        else none
    else if c.toNat < 32 then none
    else (parseStrBody fuel cs).map (fun p => (c :: p.1, p.2))

/-- Match an exact run of characters, returning the remainder. -/
def stripChars : List Char → List Char → Option (List Char)
  | [], cs => some cs
  | _ :: _, [] => none
  | p :: ps, c :: cs => if c = p then stripChars ps cs else none

/-- A fuel level of the JSON value parser: the three mutually recursive
entry points (value, array elements, object members). -/
structure JParsers where
  val : List Char → Option (Json × List Char)
  arrElems : List Char → Option (List Json × List Char)
  objMembers : List Char → Option (List (String × Json) × List Char)

/-- The exhausted-fuel parser. -/
def jsonFail : JParsers := ⟨fun _ => none, fun _ => none, fun _ => none⟩

/-- One fuel step of the JSON value parser, recursing through `p`. -/
def jsonStep (p : JParsers) : JParsers where
  val cs :=
    match dropWs cs with
    | [] => none
    | c :: rest =>
      if c = '"' then
        match parseStrBody (rest.length + 1) rest with
        | some pr => some (.str (String.mk pr.1), pr.2)
        | none => none
      else if c = '\x7b' then
        match dropWs rest with
        | '\x7d' :: r2 => some (.obj [], r2)
        | cs2 => (p.objMembers cs2).map (fun pr => (.obj pr.1, pr.2))
      else if c = '[' then
        match dropWs rest with
        | ']' :: r2 => some (.arr [], r2)
        | cs2 => (p.arrElems cs2).map (fun pr => (.arr pr.1, pr.2))
      else if c = 't' then (stripChars ['r', 'u', 'e'] rest).map (fun r => (.bool true, r))
      else if c = 'f' then (stripChars ['a', 'l', 's', 'e'] rest).map (fun r => (.bool false, r))
      else if c = 'n' then (stripChars ['u', 'l', 'l'] rest).map (fun r => (.null, r))
      else if c = '-' ∨ c.isDigit then (parseNumber (c :: rest)).map (fun pr => (.num pr.1, pr.2))
      else none
  arrElems cs :=
    match p.val cs with
    | none => none
    | some (v, r) =>
      match dropWs r with
      | ',' :: r2 => (p.arrElems r2).map (fun pr => (v :: pr.1, pr.2))
      | ']' :: r2 => some ([v], r2)
      | _ => none
  objMembers cs :=
    match dropWs cs with
    | '"' :: rest =>
      match parseStrBody (rest.length + 1) rest with
      | none => none
      | some (key, r) =>
        match dropWs r with
        | ':' :: r2 =>
          match p.val r2 with
          | none => none
          | some (v, r3) =>
            match dropWs r3 with
            | ',' :: r4 => (p.objMembers r4).map (fun pr => ((String.mk key, v) :: pr.1, pr.2))
            | '\x7d' :: r4 => some ([(String.mk key, v)], r4)
            | _ => none
        | _ => none
    | _ => none

/-- The JSON parser at a given fuel level. -/
def jsonParsers : Nat → JParsers
  | 0 => jsonFail
  | n + 1 => jsonStep (jsonParsers n)

/-- Parse a complete JSON document from a string (trailing whitespace
allowed, trailing content rejected), mirroring `serde_json::from_str`. -/
def jsonParse (s : String) : Option Json :=
  let cs := s.data
  match (jsonParsers (3 * cs.length + 16)).val cs with
  | some (v, rest) => if (dropWs rest).isEmpty then some v else none
  | none => none

/-- The target of `serde_json::from_str::<JsonPrediction>` in src/xai.rs:
`action: String`, `probability: Option<f64>`, `reasoning: String`. -/
structure JsonPrediction where
  action : String
  probability : Option ℚ
  reasoning : String
deriving DecidableEq

/-- Decode a JSON value into `Option<f64>` (serde: number or null). -/
def decodeOptF64 : Json → Option (Option ℚ)
  | .null => some none
  | .num q => some (some q)
  | _ => none

/-- Decode the fields of a JSON object into a `JsonPrediction`, mirroring
serde derive: required `String` fields, `Option` field defaulting to `none`
when absent, duplicate known fields rejected, unknown fields ignored.
Accumulators track the fields seen so far. -/
def decodeFields : List (String × Json) → Option String → Option (Option ℚ) → Option String →
    Option JsonPrediction
  | [], aAct, aProb, aRe =>
    match aAct, aRe with
    | some a, some r => some ⟨a, aProb.getD none, r⟩
    | _, _ => none
  | (k, v) :: rest, aAct, aProb, aRe =>
    if k = "action" then
      match aAct, v with
      | none, .str s => decodeFields rest (some s) aProb aRe
      | _, _ => none
    else if k = "probability" then
      match aProb, decodeOptF64 v with
      | none, some pv => decodeFields rest aAct (some pv) aRe
      | _, _ => none
    else if k = "reasoning" then
      match aRe, v with
      | none, .str s => decodeFields rest aAct aProb (some s)
      | _, _ => none
    else decodeFields rest aAct aProb aRe

/-- serde-derive deserialization of `JsonPrediction` from a JSON value
(object encoding, plus the serde struct-from-sequence encoding). -/
def decodeJsonPrediction : Json → Option JsonPrediction
  | .obj fields => decodeFields fields none none none
  | .arr [a, pv, r] =>
    match a, decodeOptF64 pv, r with
    | .str s, some q, .str rs => some ⟨s, q, rs⟩
    | _, _, _ => none
  | _ => none

/-- `Prediction` from src/xai.rs. -/
structure Prediction where
  probability : ℚ
  reasoning : String
deriving DecidableEq

/-- `PredictionResult` from src/xai.rs. -/
inductive PredictionResult where
  | Predict (p : Prediction)
  | Skip (reason : String)
deriving DecidableEq

/-- `parse_prediction` from src/xai.rs (lines 209–226): structured JSON
decoding of the response text; `skip` keeps the reasoning, `predict`
requires a probability in `[0, 100]` and rescales it to `[0, 1]`; anything
else (including any text that fails JSON decoding) is unparseable. -/
def parse_prediction (text : String) : Option PredictionResult :=
  match (jsonParse text).bind decodeJsonPrediction with
  | none => none
  | some parsed =>
    if parsed.action = "skip" then some (.Skip parsed.reasoning)
    else if parsed.action = "predict" then
      match parsed.probability with
      | none => none
      | some pct =>
        if 0 ≤ pct ∧ pct ≤ 100 then some (.Predict ⟨pct / 100, parsed.reasoning⟩)
        else none
    else none

/-- Whitespace for the spec's free-text trimming. -/
def isWsChar (c : Char) : Bool := c = ' ' ∨ c = '\t' ∨ c = '\r' ∨ c = '\n'

/-- Trim whitespace from both ends of a character list. -/
def trimChars (cs : List Char) : List Char :=
  ((cs.dropWhile isWsChar).reverse.dropWhile isWsChar).reverse

/-- Split a character list into lines at newline characters. -/
def splitLinesAux : List Char → List Char → List (List Char)
  | acc, [] => [acc.reverse]
  | acc, c :: cs =>
    if c = '\n' then acc.reverse :: splitLinesAux [] cs
    else splitLinesAux (c :: acc) cs

/-- Whether `p` is an initial run of `cs`. -/
def startsWithChars : List Char → List Char → Bool
  | [], _ => true
  | _ :: _, [] => false
  | p :: ps, c :: cs => if p = c then startsWithChars ps cs else false

/-- Scanner state for the spec's free-text sentinel-line grammar. -/
structure FreeScanState where
  reasoning : List Char
  prob : Option ℚ
  skipFound : Bool

/-- Modelled from the spec: scanning one line for the free-text sentinels
`REASONING: <text>`, `PROBABILITY: NN%` (percent sign optional, value must
parse to a number in `[0,100]`), and a literal `SKIP` marker; the last
occurrence of each field wins. This wire shape is absent from src/ (only
the structured parser exists there). -/
def scanLine (st : FreeScanState) (line : List Char) : FreeScanState :=
  let t := trimChars line
  if startsWithChars "REASONING:".data t then
    { st with reasoning := trimChars (t.drop 10) }
  else if startsWithChars "PROBABILITY:".data t then
    let v := trimChars (t.drop 12)
    let v2 :=
      match v.getLast? with
      | some '%' => v.dropLast
      | _ => v
    match parseNumber (trimChars v2) with
    | some (q, []) => if 0 ≤ q ∧ q ≤ 100 then { st with prob := some q } else st
    | _ => st
  else if t = "SKIP".data then { st with skipFound := true }
  else st

/-- Modelled from the spec: the free-text sentinel-line parsing shape
(§4.4 of the spec); `SKIP` forces a skip with whatever reasoning was
captured, otherwise a captured valid probability yields a prediction,
otherwise unparseable. -/
def parse_prediction_free_spec (text : String) : Option PredictionResult :=
  let st := (splitLinesAux [] text.data).foldl scanLine ⟨[], none, false⟩
  if st.skipFound then some (.Skip (String.mk st.reasoning))
  else
    match st.prob with
    | some q => some (.Predict ⟨q / 100, String.mk st.reasoning⟩)
    | none => none

/-- Modelled from the spec: the combined parser the spec describes —
structured decoding first, free-text line scanning on failure. -/
def parse_prediction_spec (text : String) : Option PredictionResult :=
  (parse_prediction text).orElse (fun _ => parse_prediction_free_spec text)

/-- `ContractData` from src/ws.rs. -/
structure ContractData where
  id : String
  slug : String
  question : String
  outcomeType : String
  mechanism : String
  visibility : String
  createdTime : Nat
  closeTime : Option Nat
  isResolved : Bool
  volume : Option ℚ
  probability : Option ℚ
  p : Option ℚ
  totalLiquidity : Option ℚ
  textDescription : Option String
deriving DecidableEq

/-- `CreatorData` from src/ws.rs. -/
structure CreatorData where
  id : String
  username : String
  name : String
deriving DecidableEq

/-- `NewContractBroadcast` from src/ws.rs. -/
structure NewContractBroadcast where
  contract : ContractData
  creator : CreatorData
deriving DecidableEq

/-- `BetData` from src/ws.rs. -/
structure BetData where
  contractId : String
  probBefore : ℚ
  probAfter : ℚ
deriving DecidableEq

/-- `WsEvent` from src/ws.rs. -/
inductive WsEvent where
  | Connected
  | NewContract (b : NewContractBroadcast)
  | NewBet (bet : BetData)
  | Error (e : String)
  | Disconnected
deriving DecidableEq

/-- `Market` from src/api.rs. The field `textDescription` is read by
`handle_bet_triggered` in src/bot.rs (line 306) even though the struct
declaration in src/api.rs omits it; the model includes it so that the
handler is well defined. -/
structure Market where
  id : String
  question : String
  url : String
  probability : Option ℚ
  outcomeType : String
  mechanism : String
  isResolved : Bool
  closeTime : Option Nat
  creatorUsername : String
  totalLiquidity : Option ℚ
  textDescription : Option String
deriving DecidableEq

/-- `BetRequest` from src/api.rs. -/
structure BetRequest where
  contractId : String
  amount : ℚ
  outcome : String
  limitProb : Option ℚ
deriving DecidableEq

/-- `BetResponse` from src/api.rs. -/
structure BetResponse where
  betId : Option String
  amount : Option ℚ
  outcome : Option String
  contractId : Option String
deriving DecidableEq

/-- `BotConfig` from src/bot.rs. -/
structure BotConfig where
  betAmount : ℚ
  reversionAmount : ℚ
  minEdge : ℚ
  minLiquidity : ℚ
deriving DecidableEq

/-- `BotConfig::default` from src/bot.rs. -/
def BotConfig.default : BotConfig :=
  ⟨10, 25, 1 / 10, 100⟩

/-- `CACHE_TTL_SECS` from src/bot.rs: `24 * 60 * 60`. -/
def CACHE_TTL_SECS : Nat := 24 * 60 * 60

/-- Log message descriptors. The source formats `String` messages with
`format!`; the model keeps the message kind and its arguments instead of
the rendered text (decimal float rendering is outside the embedding). -/
inductive LogMsg where
  | botStarted
  | wsConnected
  | wsDisconnectedReconnecting
  | skipLowLiquidity (liquidity : ℚ) (question : String)
  | newBinaryMarket (liquidity : ℚ) (question : String) (username : String)
  | skipNonBinary (question : String) (outcomeType : String)
  | wsError (e : String)
  | researching (question : String)
  | xaiResearchFailed (question : String) (e : String)
  | skippingUnevaluable (question : String) (reason : String)
  | couldNotParse (question : String)
  | xaiResponse (truncated : String)
  | edgeTooSmall (question : String) (predicted marketProb absEdge minEdge : ℚ) (reasoning : String)
  | placingBet (question : String) (predicted marketProb : ℚ) (outcome : String)
      (limitProb : ℚ) (reasoning : String)
  | betPlaced (outcome : String) (amount : ℚ) (question : String) (limitProb filled : ℚ)
  | betFailed (question : String) (e : String)
  | fetchMarketFailed (contractId : String) (e : String)
  | analyzingBetTriggered (liquidity : ℚ) (question : String)
  | betTriggeredEdgeTooSmall (question : String) (predicted marketProb absEdge minEdge : ℚ)
      (reasoning : String)
  | betTriggeredPlacingBet (question : String) (predicted marketProb : ℚ) (outcome : String)
      (limitProb : ℚ) (reasoning : String)
  | betPlacedReversion (outcome : String) (amount : ℚ) (question : String) (limitProb filled : ℚ)
deriving DecidableEq

/-- `BotLogEntry` from src/bot.rs. -/
inductive BotLogEntry where
  | Info (m : LogMsg)
  | Trade (m : LogMsg)
  | Error (m : LogMsg)
deriving DecidableEq

/-- The dedup cache `HashMap<String, u64>` (market id → epoch seconds),
modelled as an association list with at most one entry per key. -/
abbrev Cache := List (String × Nat)

/-- `HashMap::insert`: replace any entry for `id`. -/
def cacheInsert (c : Cache) (id : String) (ts : Nat) : Cache :=
  (id, ts) :: c.filter (fun e => e.1 ≠ id)

/-- `HashMap::contains_key`. -/
def cacheContains (c : Cache) (id : String) : Bool :=
  c.any (fun e => e.1 = id)

/-- `HashMap::get` (first entry for the key). -/
def cacheLookup (c : Cache) (id : String) : Option Nat :=
  (c.find? (fun e => e.1 = id)).map (fun e => e.2)

/-- The lazy eviction in `run_bot` (src/bot.rs lines 144–146):
`retain(|_, ts| now.saturating_sub(*ts) < CACHE_TTL_SECS)`. -/
def cacheSweep (c : Cache) (now : Nat) : Cache :=
  c.filter (fun e => now - e.2 < CACHE_TTL_SECS)

/-- The startup filter in `load_cache` (src/bot.rs lines 64–68): entries
older than the TTL are dropped when the persisted cache is loaded. -/
def load_cache_filter (entries : Cache) (now : Nat) : Cache :=
  entries.filter (fun e => now - e.2 < CACHE_TTL_SECS)

/-- An evaluation task spawned by the orchestrator (`tokio::spawn` in
`run_bot`). -/
inductive SpawnAction where
  | newMarket (b : NewContractBroadcast)
  | betTriggered (bet : BetData)
deriving DecidableEq

/-- Result of the orchestrator processing one event. -/
structure StepOut where
  cache : Cache
  logs : List BotLogEntry
  spawns : List SpawnAction
deriving DecidableEq

/-- One iteration of the `run_bot` event loop (src/bot.rs lines 97–167):
the match on the received `WsEvent`, with `now_epoch_secs()` passed in as
`now`. Disk persistence (`save_cache`) is a side effect outside the
embedding. -/
def stepBot (config : BotConfig) (cache : Cache) (now : Nat) : WsEvent → StepOut
  | .Connected => ⟨cache, [.Info .wsConnected], []⟩
  | .Disconnected => ⟨cache, [.Info .wsDisconnectedReconnecting], []⟩
  | .NewContract b =>
    if b.contract.outcomeType = "BINARY" then
      let liquidity := b.contract.totalLiquidity.getD 0
      if liquidity < config.minLiquidity then
        ⟨cache, [.Info (.skipLowLiquidity liquidity b.contract.question)], []⟩
      else
        ⟨cacheInsert cache b.contract.id now,
          [.Info (.newBinaryMarket liquidity b.contract.question b.creator.username)],
          [.newMarket b]⟩
    else
      ⟨cache, [.Info (.skipNonBinary b.contract.question b.contract.outcomeType)], []⟩
  | .NewBet bet =>
    let swept := cacheSweep cache now
    if cacheContains swept bet.contractId then ⟨swept, [], []⟩
    else ⟨cacheInsert swept bet.contractId now, [], [.betTriggered bet]⟩
  | .Error e => ⟨cache, [.Error (.wsError e)], []⟩

/-- Fold `stepBot` over a list of (processing time, event) pairs,
collecting the spawned evaluation tasks. -/
def runEvents (config : BotConfig) : Cache → List (Nat × WsEvent) → Cache × List SpawnAction
  | c, [] => (c, [])
  | c, (t, e) :: rest =>
    let out := stepBot config c t e
    let r := runEvents config out.cache rest
    (r.1, out.spawns ++ r.2)

/-- UTF-8 byte length of a character list (Rust `str::len`). -/
def utf8Len (cs : List Char) : Nat := (cs.map Char.utf8Size).sum

/-- Rust byte slicing `&s[..i]`: returns the characters making up the
first `i` bytes, or `none` (a panic) when `i` is not a character
boundary or exceeds the length. -/
def takeBytes : List Char → Nat → Option (List Char)
  | _, 0 => some []
  | [], _ + 1 => none
  | c :: cs, n + 1 =>
    if c.utf8Size ≤ n + 1 then (takeBytes cs (n + 1 - c.utf8Size)).map (fun r => c :: r)
    else none

/-- Whether byte offset `i` is a character boundary of the UTF-8 encoding
of `cs` (offsets strictly beyond the end are not boundaries). -/
def isCharBoundary : List Char → Nat → Bool
  | _, 0 => true
  | [], _ + 1 => false
  | c :: cs, n + 1 =>
    if c.utf8Size ≤ n + 1 then isCharBoundary cs (n + 1 - c.utf8Size) else false

/-- `&result.text[..result.text.len().min(300)]` from src/bot.rs line 207:
byte slicing at `min(len, 300)`; `none` models the slice panic when that
byte offset falls inside a multi-byte character. -/
def truncate300 (text : String) : Option String :=
  (takeBytes text.data (min (utf8Len text.data) 300)).map (fun cs => String.mk cs)

/-- Observable outcome of one evaluation task: whether the oracle was
called, the emitted log entries (in order), the constructed and submitted
bet order if any, and whether the task panicked (byte-slice panic). -/
structure EvalOutcome where
  oracleCalled : Bool
  logs : List BotLogEntry
  order : Option BetRequest
  panicked : Bool
deriving DecidableEq

/-- `handle_new_market` from src/bot.rs (lines 170–272), as a pure
function of the event data and the results of the two network calls
(`research` = oracle call result, `placeResult` = trading API result). -/
def handle_new_market (config : BotConfig) (broadcast : NewContractBroadcast)
    (research : Except String String) (placeResult : Except String BetResponse) : EvalOutcome :=
  let question := broadcast.contract.question
  let contractId := broadcast.contract.id
  let log0 : List BotLogEntry := [.Info (.researching question)]
  match research with
  | .error e => ⟨true, log0 ++ [.Error (.xaiResearchFailed question e)], none, false⟩
  | .ok text =>
    match parse_prediction text with
    | some (.Skip reason) =>
      ⟨true, log0 ++ [.Info (.skippingUnevaluable question reason)], none, false⟩
    | none =>
      let logsA := log0 ++ [.Error (.couldNotParse question)]
      match truncate300 text with
      | none => ⟨true, logsA, none, true⟩
      | some truncated => ⟨true, logsA ++ [.Info (.xaiResponse truncated)], none, false⟩
    | some (.Predict prediction) =>
      let marketProb := broadcast.contract.probability.getD (1 / 2)
      let edge := prediction.probability - marketProb
      let absEdge := |edge|
      let reasoning :=
        if prediction.reasoning = "" then "No reasoning provided" else prediction.reasoning
      if absEdge < config.minEdge then
        ⟨true, log0 ++ [.Info (.edgeTooSmall question prediction.probability marketProb
          absEdge config.minEdge reasoning)], none, false⟩
      else
        let outcome := if edge > 0 then "YES" else "NO"
        let limitProb0 := prediction.probability
        let logsB := log0 ++ [.Info (.placingBet question prediction.probability marketProb
          outcome limitProb0 reasoning)]
        let limitProb := min (max limitProb0 (1 / 100)) (99 / 100)
        let bet : BetRequest := ⟨contractId, config.betAmount, outcome, some limitProb⟩
        match placeResult with
        | .ok resp =>
          ⟨true, logsB ++ [.Trade (.betPlaced outcome config.betAmount question limitProb
            (resp.amount.getD 0))], some bet, false⟩
        | .error e =>
          ⟨true, logsB ++ [.Error (.betFailed question e)], some bet, false⟩

/-- `handle_bet_triggered` from src/bot.rs (lines 274–391), as a pure
function of the event data and the results of the three network calls
(`fetch` = `get_market`, `research` = oracle, `placeResult` = `place_bet`). -/
def handle_bet_triggered (config : BotConfig) (betData : BetData)
    (fetch : Except String Market) (research : Except String String)
    (placeResult : Except String BetResponse) : EvalOutcome :=
  match fetch with
  | .error e => ⟨false, [.Error (.fetchMarketFailed betData.contractId e)], none, false⟩
  | .ok market =>
    if market.isResolved ∨ market.outcomeType ≠ "BINARY" then ⟨false, [], none, false⟩
    else
      let liquidity := market.totalLiquidity.getD 0
      if liquidity < config.minLiquidity then ⟨false, [], none, false⟩
      else
        let question := market.question
        let log0 : List BotLogEntry := [.Info (.analyzingBetTriggered liquidity question)]
        match research with
        | .error e => ⟨true, log0 ++ [.Error (.xaiResearchFailed question e)], none, false⟩
        | .ok text =>
          match parse_prediction text with
          | some (.Skip reason) =>
            ⟨true, log0 ++ [.Info (.skippingUnevaluable question reason)], none, false⟩
          | none => ⟨true, log0 ++ [.Error (.couldNotParse question)], none, false⟩
          | some (.Predict prediction) =>
            let marketProb := market.probability.getD (1 / 2)
            let edge := prediction.probability - marketProb
            let absEdge := |edge|
            let reasoning :=
              if prediction.reasoning = "" then "No reasoning provided" else prediction.reasoning
            if absEdge < config.minEdge then
              ⟨true, log0 ++ [.Info (.betTriggeredEdgeTooSmall question prediction.probability
                marketProb absEdge config.minEdge reasoning)], none, false⟩
            else
              let outcome := if edge > 0 then "YES" else "NO"
              let limitProb0 := prediction.probability
              let logsB := log0 ++ [.Info (.betTriggeredPlacingBet question
                prediction.probability marketProb outcome limitProb0 reasoning)]
              let limitProb := min (max limitProb0 (1 / 100)) (99 / 100)
              let bet : BetRequest := ⟨betData.contractId, config.reversionAmount, outcome,
                some limitProb⟩
              match placeResult with
              | .ok resp =>
                ⟨true, logsB ++ [.Trade (.betPlacedReversion outcome config.reversionAmount
                  question limitProb (resp.amount.getD 0))], some bet, false⟩
              | .error e =>
                ⟨true, logsB ++ [.Error (.betFailed question e)], some bet, false⟩

/-- A decoded text frame in the read loop of `connect_and_listen`
(src/ws.rs lines 155–173). Broadcast payload decoding (`parse_broadcast`)
is abstracted to its resulting event. -/
inductive WsIncoming where
  | ack (success : Bool)
  | broadcastEv (ev : WsEvent)
  | textUnparseable
  | close
  | otherFrame
deriving DecidableEq

/-- One arm of the `select!` in the read loop of `connect_and_listen`
(src/ws.rs lines 127–175): a keepalive tick (with the send result), a
frame read within the 90s window, a read error, the stream ending, or the
90s staleness timeout firing. -/
inductive LoopInput where
  | pingTick (sendOk : Bool)
  | frame (m : WsIncoming)
  | readError (e : String)
  | streamEnd
  | staleTimeout
deriving DecidableEq

/-- Processing of one `LoopInput` by the read loop: the events sent on the
channel and whether the loop breaks. -/
def stepInput : LoopInput → List WsEvent × Bool
  | .pingTick true => ([], false)
  | .pingTick false => ([], true)
  | .frame (.ack true) => ([], false)
  | .frame (.ack false) => ([.Error "Subscription failed"], false)
  | .frame (.broadcastEv ev) => ([ev], false)
  | .frame .textUnparseable => ([], false)
  | .frame .close => ([], true)
  | .frame .otherFrame => ([], false)
  | .readError e => ([.Error ("WS read error: " ++ e)], true)
  | .streamEnd => ([], true)
  | .staleTimeout => ([.Error "WS stale — no message for 90s"], true)

/-- The read loop of `connect_and_listen`: process inputs until one
breaks, collecting the emitted events. -/
def connLoop : List LoopInput → List WsEvent
  | [] => []
  | i :: rest =>
    let r := stepInput i
    if r.2 then r.1 else r.1 ++ connLoop rest

/-- Outcome of one connection attempt: either `connect_async`/the
subscribe send fails (an `Err` return before `Connected` is emitted), or
the connection succeeds and the read loop runs over `inputs`
(`connect_and_listen` returns `Ok(())` from every `break`). -/
inductive ConnOutcome where
  | connectFail (e : String)
  | session (inputs : List LoopInput)

/-- An observable action of `run_ws`: starting a connection attempt,
sending an event on the channel, or sleeping. -/
inductive WsAction where
  | attemptConnect
  | emit (e : WsEvent)
  | sleepSecs (n : Nat)
deriving DecidableEq

/-- One iteration of the `run_ws` loop (src/ws.rs lines 89–97): attempt a
connection; on `Err` emit a `WS error` event; then always emit
`Disconnected` and sleep 3 seconds before the next iteration. -/
def runWsIteration : ConnOutcome → List WsAction
  | .connectFail e =>
    [.attemptConnect, .emit (.Error ("WS error: " ++ e)), .emit .Disconnected, .sleepSecs 3]
  | .session ins =>
    .attemptConnect :: .emit .Connected ::
      ((connLoop ins).map .emit ++ [.emit .Disconnected, .sleepSecs 3])

/-- The infinite `loop` of `run_ws`, as the total function giving the
actions of iteration `n` for any sequence of connection outcomes: every
`n : Nat` has an iteration, modelling that the loop never terminates. -/
def run_ws_trace (outcomes : Nat → ConnOutcome) (n : Nat) : List WsAction :=
  runWsIteration (outcomes n)

/-- Sample bet event for concrete instantiations. -/
def sampleBet : BetData := ⟨"mkt1", 1 / 2, 3 / 5⟩

/-- Sample eligible binary market (liquidity 150, probability 40%). -/
def sampleMarket : Market :=
  ⟨"mkt1", "Q?", "https://manifold.markets/q", some (2 / 5), "BINARY", "cpmm-1", false, none,
    "alice", some 150, none⟩

/-- Sample resolved market. -/
def sampleResolvedMarket : Market :=
  ⟨"mkt2", "R?", "https://manifold.markets/r", some (2 / 5), "BINARY", "cpmm-1", true, none,
    "alice", some 150, none⟩

/-- Sample contract with liquidity 150. -/
def sampleContract150 : ContractData :=
  ⟨"mkt1", "q", "Q?", "BINARY", "cpmm-1", "public", 0, none, false, some 0, some (2 / 5),
    some (1 / 2), some 150, none⟩

/-- Sample creator. -/
def sampleCreator : CreatorData := ⟨"u1", "alice", "Alice"⟩

/-- Sample new-contract broadcast, liquidity 150. -/
def sampleBroadcast150 : NewContractBroadcast := ⟨sampleContract150, sampleCreator⟩

/-- Sample new-contract broadcast, liquidity 50. -/
def sampleBroadcast50 : NewContractBroadcast :=
  ⟨{ sampleContract150 with totalLiquidity := some 50 }, sampleCreator⟩

/-- Sample empty bet response. -/
def emptyResp : BetResponse := ⟨none, none, none, none⟩

/-- A structured predict answer at 55% with reasoning `x`. -/
def predict55Text : String :=
  "\x7b\"action\":\"predict\",\"probability\":55,\"reasoning\":\"x\"\x7d"

/-- A structured predict answer with out-of-range probability 150. -/
def predict150Text : String :=
  "\x7b\"action\":\"predict\",\"probability\":150,\"reasoning\":\"z\"\x7d"

/-- A 303-byte oracle response whose byte offset 300 falls inside the
two-byte character `é`: 299 ASCII characters, then `é`, then `b`. -/
def longText : String := String.mk (List.replicate 299 'a' ++ ['é', 'b'])

/-! ## Cache lemmas -/

lemma mem_cacheInsert {p : String × Nat} {c : Cache} {id : String} {ts : Nat} :
    p ∈ cacheInsert c id ts ↔ p = (id, ts) ∨ (p ∈ c ∧ p.1 ≠ id) := by
  simp [cacheInsert, List.mem_filter]

lemma cacheContains_iff {c : Cache} {id : String} :
    cacheContains c id = true ↔ ∃ ts, (id, ts) ∈ c := by
  simp only [cacheContains, List.any_eq_true, decide_eq_true_eq]
  constructor
  · rintro ⟨⟨a, b⟩, hm, he⟩
    obtain rfl : a = id := he
    exact ⟨b, hm⟩
  · rintro ⟨ts, hm⟩
    exact ⟨(id, ts), hm, rfl⟩

/-- The invariant carried through intervening events in the dedup claim:
all cache entries for `id` are stamped at time `t1` or later, and at least
one entry for `id` exists. -/
def cacheGood (id : String) (t1 : Nat) (c : Cache) : Prop :=
  (∀ p ∈ c, p.1 = id → t1 ≤ p.2) ∧ ∃ ts, (id, ts) ∈ c

lemma cacheGood_insert {id : String} {t1 : Nat} {c : Cache} {k : String} {ts : Nat}
    (hts : t1 ≤ ts) (h : k = id ∨ cacheGood id t1 c) :
    cacheGood id t1 (cacheInsert c k ts) := by
  constructor
  · intro p hp hpid
    rcases mem_cacheInsert.mp hp with h1 | ⟨h1, h2⟩
    · subst h1; exact hts
    · rcases h with rfl | hg
      · exact absurd hpid h2
      · exact hg.1 p h1 hpid
  · rcases h with rfl | hg
    · exact ⟨ts, mem_cacheInsert.mpr (Or.inl rfl)⟩
    · obtain ⟨ts', hm⟩ := hg.2
      by_cases hk : k = id
      · exact ⟨ts, mem_cacheInsert.mpr (Or.inl (by rw [hk]))⟩
      · exact ⟨ts', mem_cacheInsert.mpr (Or.inr ⟨hm, fun he => hk he.symm⟩)⟩

lemma cacheGood_sweep {id : String} {t1 : Nat} {c : Cache} {now : Nat}
    (h : cacheGood id t1 c) (hnow : now - t1 < CACHE_TTL_SECS) :
    cacheGood id t1 (cacheSweep c now) := by
  constructor
  · intro p hp hpid
    exact h.1 p (List.mem_filter.mp hp).1 hpid
  · obtain ⟨ts, hm⟩ := h.2
    have hts : t1 ≤ ts := h.1 (id, ts) hm rfl
    refine ⟨ts, List.mem_filter.mpr ⟨hm, ?_⟩⟩
    simp only [decide_eq_true_eq]
    omega

lemma cacheGood_step (config : BotConfig) {id : String} {t1 : Nat} {c : Cache} {now : Nat}
    (event : WsEvent) (h : cacheGood id t1 c) (h1 : t1 ≤ now)
    (h2 : now - t1 < CACHE_TTL_SECS) :
    cacheGood id t1 (stepBot config c now event).cache := by
  cases event with
  | Connected => exact h
  | Disconnected => exact h
  | Error e => exact h
  | NewContract b =>
    simp only [stepBot]
    by_cases hb : b.contract.outcomeType = "BINARY"
    · by_cases hl : b.contract.totalLiquidity.getD 0 < config.minLiquidity
      · simp only [hb, if_true, hl, if_true]; exact h
      · simp only [hb, if_true, hl, if_false]
        exact cacheGood_insert h1 (Or.inr h)
    · simp only [hb, if_false]
      exact h
  | NewBet bet =>
    simp only [stepBot]
    have hs := cacheGood_sweep h h2
    by_cases hc : cacheContains (cacheSweep c now) bet.contractId  = true
    · simp only [hc, if_true]
      exact hs
    · simp only [hc, if_false]
      exact cacheGood_insert h1 (Or.inr hs)

lemma cacheGood_runEvents (config : BotConfig) {id : String} {t1 t2 : Nat}
    (hwin : t2 - t1 < CACHE_TTL_SECS) :
    ∀ (evs : List (Nat × WsEvent)) (c : Cache), cacheGood id t1 c →
      (∀ p ∈ evs, t1 ≤ p.1 ∧ p.1 ≤ t2) →
      cacheGood id t1 (runEvents config c evs).1
  | [], c, h, _ => h
  | (t, e) :: rest, c, h, hb => by
    have hbt := hb (t, e) (List.mem_cons_self _ _)
    have hstep := cacheGood_step config e h hbt.1 (by omega)
    exact cacheGood_runEvents config hwin rest _ hstep
      (fun p hp => hb p (List.mem_cons_of_mem _ hp))

/-- Byte slicing succeeds exactly at character boundaries. -/
lemma takeBytes_isSome : ∀ (cs : List Char) (i : Nat),
    (takeBytes cs i).isSome = isCharBoundary cs i
  | [], 0 => rfl
  | _ :: _, 0 => rfl
  | [], _ + 1 => rfl
  | c :: cs, n + 1 => by
    simp only [takeBytes, isCharBoundary]
    by_cases h : c.utf8Size ≤ n + 1
    · simp only [h, if_true]
      have hmap : ∀ (x : Option (List Char)), (x.map (fun r => c :: r)).isSome = x.isSome := by
        intro x; cases x <;> rfl
      rw [hmap]
      exact takeBytes_isSome cs (n + 1 - c.utf8Size)
    · simp [h]

/-- The read loop over a run of non-breaking inputs emits their events in
order and then continues with the remaining inputs. -/
lemma connLoop_append (ins tail : List LoopInput)
    (h : ∀ i ∈ ins, (stepInput i).2 = false) :
    connLoop (ins ++ tail)
      = (ins.flatMap (fun i => (stepInput i).1)) ++ connLoop tail := by
  induction ins with
  | nil => simp
  | cons i rest ih =>
    have hi := h i (List.mem_cons_self _ _)
    have hrest := fun j hj => h j (List.mem_cons_of_mem _ hj)
    simp [connLoop, hi, ih hrest]

/-! ## Claim theorems -/

/-- C5: a Dedup Entry inserted at time `T` is still present after the lazy
sweep at `T + 24h − 1s` and absent after the sweep at `T + 24h + 1s`; both
the sweep and the startup load filter retain an entry exactly when its age
`now − ts` is strictly less than 86400 seconds. -/
theorem C5_cache_ttl (c entries : Cache) (id s : String) (T now ts : Nat) :
    cacheContains (cacheSweep (cacheInsert c id T) (T + CACHE_TTL_SECS - 1)) id = true
    ∧ cacheContains (cacheSweep (cacheInsert c id T) (T + CACHE_TTL_SECS + 1)) id = false
    ∧ ((s, ts) ∈ cacheSweep entries now ↔ (s, ts) ∈ entries ∧ now - ts < 86400)
    ∧ ((s, ts) ∈ load_cache_filter entries now ↔ (s, ts) ∈ entries ∧ now - ts < 86400) := by
  refine ⟨?_, ?_, ?_, ?_⟩
  · have h1 : (T + CACHE_TTL_SECS - 1) - T < CACHE_TTL_SECS := by
      simp only [CACHE_TTL_SECS]; omega
    apply cacheContains_iff.mpr
    exact ⟨T, List.mem_filter.mpr ⟨mem_cacheInsert.mpr (Or.inl rfl), by simpa using h1⟩⟩
  · rw [← Bool.not_eq_true, cacheContains_iff]
    rintro ⟨ts', hm⟩
    have hm2 := List.mem_filter.mp hm
    rcases mem_cacheInsert.mp hm2.1 with he | ⟨_, hne⟩
    · have hts : ts' = T := congrArg Prod.snd he
      have := hm2.2
      simp only [hts, decide_eq_true_eq, CACHE_TTL_SECS] at this
      omega
    · exact hne rfl
  · simp [cacheSweep, List.mem_filter, CACHE_TTL_SECS]
  · simp [load_cache_filter, List.mem_filter, CACHE_TTL_SECS]

/-- C5 witness at concrete inputs: insertion at 1000, present at age
86399, absent at age 86401. -/
theorem C5_cache_ttl_witness :
    cacheContains (cacheSweep (cacheInsert [] "m1" 1000) (1000 + CACHE_TTL_SECS - 1)) "m1" = true
    ∧ cacheContains (cacheSweep (cacheInsert [] "m1" 1000) (1000 + CACHE_TTL_SECS + 1)) "m1"
        = false :=
  ⟨(C5_cache_ttl [] [] "m1" "x" 1000 0 0).1, (C5_cache_ttl [] [] "m1" "x" 1000 0 0).2.1⟩

/-- C6: a Contract-Created event spawns an evaluation iff the market is
binary and its liquidity (default 0) is at least the configured minimum;
otherwise it is logged (a single info entry) and discarded with no dedup
insertion and no spawn; the eligible case inserts the dedup entry; in
particular liquidity 150 spawns at minimum 100 and liquidity 50 does not. -/
theorem C6_contract_filter (config : BotConfig) (cache : Cache) (now : Nat)
    (b : NewContractBroadcast) :
    ((stepBot config cache now (.NewContract b)).spawns = [.newMarket b]
      ↔ (b.contract.outcomeType = "BINARY"
          ∧ config.minLiquidity ≤ b.contract.totalLiquidity.getD 0))
    ∧ (¬(b.contract.outcomeType = "BINARY"
          ∧ config.minLiquidity ≤ b.contract.totalLiquidity.getD 0) →
        (stepBot config cache now (.NewContract b)).spawns = []
        ∧ (stepBot config cache now (.NewContract b)).cache = cache
        ∧ ∃ m : LogMsg, (stepBot config cache now (.NewContract b)).logs = [.Info m])
    ∧ ((b.contract.outcomeType = "BINARY"
          ∧ config.minLiquidity ≤ b.contract.totalLiquidity.getD 0) →
        (stepBot config cache now (.NewContract b)).cache
          = cacheInsert cache b.contract.id now)
    ∧ (b.contract.outcomeType = "BINARY" → b.contract.totalLiquidity = some 150 →
        config.minLiquidity = 100 →
        (stepBot config cache now (.NewContract b)).spawns = [.newMarket b])
    ∧ (b.contract.outcomeType = "BINARY" → b.contract.totalLiquidity = some 50 →
        config.minLiquidity = 100 →
        (stepBot config cache now (.NewContract b)).spawns = []) := by
  by_cases hb : b.contract.outcomeType = "BINARY"
  · by_cases hl : b.contract.totalLiquidity.getD 0 < config.minLiquidity
    · refine ⟨?_, ?_, ?_, ?_, ?_⟩
      · simp [stepBot, hb, hl, not_le.mpr hl]
      · intro _; simp [stepBot, hb, hl]
      · intro hnl; exact absurd hnl.2 (not_le.mpr hl)
      · intro _ h150 h100
        rw [h150, h100] at hl
        exact absurd hl (by norm_num)
      · intro _ _ _; simp [stepBot, hb, hl]
    · refine ⟨?_, ?_, ?_, ?_, ?_⟩
      · simp [stepBot, hb, hl, not_lt.mp hl]
      · intro hnl; exact absurd ⟨hb, not_lt.mp hl⟩ hnl
      · intro _; simp [stepBot, hb, hl]
      · intro _ _ _; simp [stepBot, hb, hl]
      · intro _ h50 h100
        rw [h50, h100] at hl
        exact absurd (by norm_num : (50 : ℚ) < 100) hl
  · refine ⟨?_, ?_, ?_, ?_, ?_⟩
    · simp [stepBot, hb]
    · intro _; simp [stepBot, hb]
    · intro hel; exact absurd hel.1 hb
    · intro h; exact absurd h hb
    · intro h; exact absurd h hb

/-- C6 witness at concrete inputs: defaults (minimum 100), liquidity 150
spawns, liquidity 50 does not. -/
theorem C6_contract_filter_witness :
    (stepBot BotConfig.default [] 5 (.NewContract sampleBroadcast150)).spawns
      = [.newMarket sampleBroadcast150]
    ∧ (stepBot BotConfig.default [] 5 (.NewContract sampleBroadcast50)).spawns = [] :=
  ⟨(C6_contract_filter BotConfig.default [] 5 sampleBroadcast150).2.2.2.1
      (by with_unfolding_all decide) (by with_unfolding_all decide) (by with_unfolding_all decide),
    (C6_contract_filter BotConfig.default [] 5 sampleBroadcast50).2.2.2.2
      (by with_unfolding_all decide) (by with_unfolding_all decide) (by with_unfolding_all decide)⟩

/-- C1 counterexample: the claim says the parser falls back to free-text
line scanning when structured decoding fails, so the literal `SKIP` marker
should produce a skip; on the code, `parse_prediction "SKIP"` is
unparseable (`none`), while the spec's combined parser yields the skip. -/
theorem C1_counterexample :
    parse_prediction "SKIP" = none
    ∧ parse_prediction_spec "SKIP" = some (.Skip "") :=
  ⟨by with_unfolding_all decide, by with_unfolding_all decide⟩

/-- C1 (amended): the parser accepts only the structured JSON shape:
whenever structured decoding fails, the result is unparseable, even on
responses that the spec's free-text sentinel grammar would accept. -/
theorem C1_structured_only (text : String) (r : PredictionResult)
    (hjson : (jsonParse text).bind decodeJsonPrediction = none)
    (hfree : parse_prediction_free_spec text = some r) :
    parse_prediction text = none ∧ parse_prediction_spec text = some r := by
  have h1 : parse_prediction text = none := by
    simp [parse_prediction, hjson]
  refine ⟨h1, ?_⟩
  simp [parse_prediction_spec, h1, hfree, Option.orElse]

/-- C1 witness at the concrete input `"SKIP"`. -/
theorem C1_structured_only_witness :
    (jsonParse "SKIP").bind decodeJsonPrediction = none
    ∧ parse_prediction_free_spec "SKIP" = some (.Skip "")
    ∧ parse_prediction "SKIP" = none ∧ parse_prediction_spec "SKIP" = some (.Skip "") :=
  ⟨by with_unfolding_all decide, by with_unfolding_all decide, C1_structured_only "SKIP" (.Skip "") (by with_unfolding_all decide) (by with_unfolding_all decide)⟩

/-- C4 counterexample: the claim says an out-of-range probability yields
unparseable independent of the action field; on the code, a structured
response with `action:"skip"` and `probability:500` parses to a skip. -/
theorem C4_counterexample :
    parse_prediction "\x7b\"action\":\"skip\",\"probability\":500,\"reasoning\":\"y\"\x7d"
      = some (.Skip "y") := by
  decide

/-- C4 (amended): under the structured shape, an out-of-range (or missing)
probability yields unparseable only when the action is `"predict"`
(independent of the reasoning text); when the action is `"skip"` the
probability field is ignored entirely. (Any text failing structured
decoding — the only other shape in the code — is unparseable outright.) -/
theorem C4_range_rule (text : String) (jp : JsonPrediction)
    (hdec : (jsonParse text).bind decodeJsonPrediction = some jp) :
    (jp.action = "predict" →
      (∀ q, jp.probability = some q → ¬(0 ≤ q ∧ q ≤ 100)) →
      parse_prediction text = none)
    ∧ (jp.action = "skip" → parse_prediction text = some (.Skip jp.reasoning)) := by
  constructor
  · intro ha hq
    simp only [parse_prediction, hdec, ha]
    cases hp : jp.probability with
    | none => simp
    | some q => simp [hq q hp]
  · intro ha
    simp [parse_prediction, hdec, ha]

/-- C4 witness at a concrete out-of-range predict response. -/
theorem C4_range_rule_witness :
    (jsonParse predict150Text).bind decodeJsonPrediction
      = some ⟨"predict", some 150, "z"⟩
    ∧ parse_prediction predict150Text = none := by
  refine ⟨by with_unfolding_all decide, ?_⟩
  refine (C4_range_rule predict150Text ⟨"predict", some 150, "z"⟩ (by with_unfolding_all decide)).1 rfl ?_
  intro q hq
  obtain rfl : (150 : ℚ) = q := Option.some.inj hq
  decide

/-- C7: a reversion-triggered evaluation whose fetched market is resolved,
non-binary, or below the minimum liquidity aborts silently: no log entry,
no oracle call, no order. -/
theorem C7_reversion_silent (config : BotConfig) (bd : BetData) (m : Market)
    (research : Except String String) (pr : Except String BetResponse)
    (h : m.isResolved = true ∨ m.outcomeType ≠ "BINARY"
        ∨ m.totalLiquidity.getD 0 < config.minLiquidity) :
    handle_bet_triggered config bd (.ok m) research pr = ⟨false, [], none, false⟩ := by
  by_cases h1 : (m.isResolved = true ∨ m.outcomeType ≠ "BINARY")
  · simp [handle_bet_triggered, h1]
  · push_neg at h1
    have hliq : m.totalLiquidity.getD 0 < config.minLiquidity := by
      rcases h with ha | hb | hc
      · exact absurd ha h1.1
      · exact absurd h1.2 hb
      · exact hc
    simp [handle_bet_triggered, h1.1, h1.2, hliq]

/-- C2: two Bet-Occurred events for the same market id whose processing
times are within the cooldown window spawn exactly one evaluation: the
first (on a fresh id) inserts the dedup entry in the same step it spawns,
and the second — across arbitrary intervening events processed at times
between the two — finds the id present after the sweep and spawns
nothing. -/
theorem C2_dedup_single_spawn (config : BotConfig) (cache0 : Cache) (id : String)
    (pb pa pb2 pa2 : ℚ) (t1 t2 : Nat) (mids : List (Nat × WsEvent))
    (hfresh : cacheContains (cacheSweep cache0 t1) id = false)
    (_hle : t1 ≤ t2) (hwin : t2 - t1 < CACHE_TTL_SECS)
    (hmid : ∀ p ∈ mids, t1 ≤ p.1 ∧ p.1 ≤ t2) :
    (stepBot config cache0 t1 (.NewBet ⟨id, pb, pa⟩)).spawns
        = [.betTriggered ⟨id, pb, pa⟩]
    ∧ (stepBot config cache0 t1 (.NewBet ⟨id, pb, pa⟩)).cache
        = cacheInsert (cacheSweep cache0 t1) id t1
    ∧ (stepBot config
        (runEvents config (stepBot config cache0 t1 (.NewBet ⟨id, pb, pa⟩)).cache mids).1
        t2 (.NewBet ⟨id, pb2, pa2⟩)).spawns = [] := by
  have hstep1 : stepBot config cache0 t1 (.NewBet ⟨id, pb, pa⟩)
      = ⟨cacheInsert (cacheSweep cache0 t1) id t1, [], [.betTriggered ⟨id, pb, pa⟩]⟩ := by
    simp [stepBot, hfresh]
  refine ⟨by rw [hstep1], by rw [hstep1], ?_⟩
  have hgood1 : cacheGood id t1 (cacheInsert (cacheSweep cache0 t1) id t1) :=
    cacheGood_insert le_rfl (Or.inl rfl)
  have hgoodMid : cacheGood id t1
      (runEvents config (cacheInsert (cacheSweep cache0 t1) id t1) mids).1 :=
    cacheGood_runEvents config hwin mids _ hgood1 hmid
  have hgood2 : cacheGood id t1
      (cacheSweep (runEvents config (cacheInsert (cacheSweep cache0 t1) id t1) mids).1 t2) :=
    cacheGood_sweep hgoodMid hwin
  have hcont : cacheContains
      (cacheSweep (runEvents config (cacheInsert (cacheSweep cache0 t1) id t1) mids).1 t2) id
      = true :=
    cacheContains_iff.mpr hgood2.2
  rw [hstep1]
  simp [stepBot, hcont]

/-- C2 witness at concrete inputs: two bet events on `"m1"` 86399 seconds
apart with one intervening event; one spawn, then none. -/
theorem C2_dedup_single_spawn_witness :
    cacheContains (cacheSweep ([] : Cache) 1000) "m1" = false
    ∧ (stepBot BotConfig.default [] 1000 (.NewBet ⟨"m1", 1 / 2, 3 / 5⟩)).spawns
        = [.betTriggered ⟨"m1", 1 / 2, 3 / 5⟩]
    ∧ (stepBot BotConfig.default
        (runEvents BotConfig.default
          (stepBot BotConfig.default [] 1000 (.NewBet ⟨"m1", 1 / 2, 3 / 5⟩)).cache
          [(1500, .Connected)]).1
        87399 (.NewBet ⟨"m1", 1 / 4, 2 / 5⟩)).spawns = [] :=
  ⟨by with_unfolding_all decide,
    (C2_dedup_single_spawn BotConfig.default [] "m1" (1 / 2) (3 / 5) (1 / 4) (2 / 5)
      1000 87399 [(1500, .Connected)] (by with_unfolding_all decide) (by with_unfolding_all decide) (by with_unfolding_all decide) (by with_unfolding_all decide)).1,
    (C2_dedup_single_spawn BotConfig.default [] "m1" (1 / 2) (3 / 5) (1 / 4) (2 / 5)
      1000 87399 [(1500, .Connected)] (by with_unfolding_all decide) (by with_unfolding_all decide) (by with_unfolding_all decide) (by with_unfolding_all decide)).2.2⟩

/-- C8 counterexample: the claim says every evaluation logs the raw
oracle response truncated to 300 characters on an unparseable answer; in
the reversion-triggered path the code logs only the parse-failure error —
no `xaiResponse` entry appears in the log list. -/
theorem C8_counterexample :
    (handle_bet_triggered BotConfig.default sampleBet (.ok sampleMarket)
        (.ok "not json at all") (.ok emptyResp)).logs
      = [.Info (.analyzingBetTriggered 150 "Q?"), .Error (.couldNotParse "Q?")] := by
  with_unfolding_all decide

/-- C8 (amended): on an unparseable oracle answer both paths abort as an
error with no order; the creation-triggered path additionally logs the raw
response truncated to 300 bytes (when that byte offset is a character
boundary), while the reversion-triggered path logs only the parse-failure
error, without the raw response. -/
theorem C8_unparseable_logging (config : BotConfig) (b : NewContractBroadcast) (bd : BetData)
    (m : Market) (text : String) (pr : Except String BetResponse)
    (hparse : parse_prediction text = none)
    (hres : m.isResolved = false) (hbin : m.outcomeType = "BINARY")
    (hliq : config.minLiquidity ≤ m.totalLiquidity.getD 0) :
    (∀ tr, truncate300 text = some tr →
      handle_new_market config b (.ok text) pr
        = ⟨true, [.Info (.researching b.contract.question),
            .Error (.couldNotParse b.contract.question), .Info (.xaiResponse tr)],
            none, false⟩)
    ∧ handle_bet_triggered config bd (.ok m) (.ok text) pr
        = ⟨true, [.Info (.analyzingBetTriggered (m.totalLiquidity.getD 0) m.question),
            .Error (.couldNotParse m.question)], none, false⟩ := by
  constructor
  · intro tr htr
    simp [handle_new_market, hparse, htr]
  · have hnl : ¬(m.totalLiquidity.getD 0 < config.minLiquidity) := not_lt.mpr hliq
    simp [handle_bet_triggered, hres, hbin, hnl, hparse]

/-- C8 witness at a concrete unparseable response. -/
theorem C8_unparseable_logging_witness :
    parse_prediction "not json at all" = none
    ∧ truncate300 "not json at all" = some "not json at all"
    ∧ handle_new_market BotConfig.default sampleBroadcast150 (.ok "not json at all")
        (.ok emptyResp)
        = ⟨true, [.Info (.researching "Q?"), .Error (.couldNotParse "Q?"),
            .Info (.xaiResponse "not json at all")], none, false⟩
    ∧ handle_bet_triggered BotConfig.default sampleBet (.ok sampleMarket)
        (.ok "not json at all") (.ok emptyResp)
        = ⟨true, [.Info (.analyzingBetTriggered 150 "Q?"), .Error (.couldNotParse "Q?")],
            none, false⟩ := by
  refine ⟨by with_unfolding_all decide, by with_unfolding_all decide, ?_, ?_⟩
  · have h := (C8_unparseable_logging BotConfig.default sampleBroadcast150 sampleBet
      sampleMarket "not json at all" (.ok emptyResp) (by with_unfolding_all decide)
      (by with_unfolding_all decide) (by with_unfolding_all decide)
      (by with_unfolding_all decide)).1 "not json at all" (by with_unfolding_all decide)
    rw [h]
    with_unfolding_all decide
  · have h := (C8_unparseable_logging BotConfig.default sampleBroadcast150 sampleBet
      sampleMarket "not json at all" (.ok emptyResp) (by with_unfolding_all decide)
      (by with_unfolding_all decide) (by with_unfolding_all decide)
      (by with_unfolding_all decide)).2
    rw [h]
    with_unfolding_all decide

/-- C10: with an unparseable answer in the creation-triggered path, the
task panics exactly when byte offset `min(len, 300)` of the response is
not a character boundary; in particular every response longer than 300
bytes whose offset 300 falls inside a multi-byte character panics, and
when the slice succeeds the truncated raw response is logged. -/
theorem C10_byte_truncation (config : BotConfig) (b : NewContractBroadcast) (text : String)
    (pr : Except String BetResponse) (hparse : parse_prediction text = none) :
    ((handle_new_market config b (.ok text) pr).panicked = true
      ↔ isCharBoundary text.data (min (utf8Len text.data) 300) = false)
    ∧ (300 < utf8Len text.data → isCharBoundary text.data 300 = false →
        (handle_new_market config b (.ok text) pr).panicked = true)
    ∧ (∀ tr, truncate300 text = some tr →
        (handle_new_market config b (.ok text) pr).logs
          = [.Info (.researching b.contract.question),
              .Error (.couldNotParse b.contract.question), .Info (.xaiResponse tr)]) := by
  have hiff : (handle_new_market config b (.ok text) pr).panicked = true
      ↔ isCharBoundary text.data (min (utf8Len text.data) 300) = false := by
    rw [← takeBytes_isSome]
    cases htr : takeBytes text.data (min (utf8Len text.data) 300) with
    | none =>
      have : truncate300 text = none := by simp [truncate300, htr]
      simp [handle_new_market, hparse, this, htr]
    | some tr =>
      have : truncate300 text = some (String.mk tr) := by simp [truncate300, htr]
      simp [handle_new_market, hparse, this, htr]
  refine ⟨hiff, ?_, ?_⟩
  · intro hlen hbd
    rw [hiff, Nat.min_eq_right (Nat.le_of_lt hlen)]
    exact hbd
  · intro tr htr
    simp [handle_new_market, hparse, htr]

/-- C10 witness: a 303-byte response (`longText`) whose byte offset 300
falls inside the two-byte character `é` makes the creation-triggered task
panic. -/
theorem C10_byte_truncation_witness :
    parse_prediction longText = none
    ∧ 300 < utf8Len longText.data
    ∧ isCharBoundary longText.data 300 = false
    ∧ (handle_new_market BotConfig.default sampleBroadcast150 (.ok longText)
        (.ok emptyResp)).panicked = true :=
  ⟨by with_unfolding_all decide, by with_unfolding_all decide, by with_unfolding_all decide,
    (C10_byte_truncation BotConfig.default sampleBroadcast150 longText (.ok emptyResp)
      (by with_unfolding_all decide)).2.1
      (by with_unfolding_all decide) (by with_unfolding_all decide)⟩

/-- C3: in both evaluation paths, a `predict(p)` answer computes the edge
as `p` minus the market probability (default 1/2 when absent); strictly
below the minimum edge no order is submitted (an info skip entry is the
only further log); otherwise exactly one order is constructed, buying YES
when the edge is positive and NO otherwise, with limit probability `p`
clamped to `[0.01, 0.99]`, staking the per-mode configured amount. -/
theorem C3_edge_rule (config : BotConfig) (b : NewContractBroadcast) (bd : BetData) (m : Market)
    (text : String) (pr : Except String BetResponse) (pred : Prediction)
    (hparse : parse_prediction text = some (.Predict pred))
    (hres : m.isResolved = false) (hbin : m.outcomeType = "BINARY")
    (hliq : config.minLiquidity ≤ m.totalLiquidity.getD 0) :
    (|pred.probability - b.contract.probability.getD (1 / 2)| < config.minEdge →
      (handle_new_market config b (.ok text) pr).order = none
      ∧ (handle_new_market config b (.ok text) pr).logs
          = [.Info (.researching b.contract.question),
              .Info (.edgeTooSmall b.contract.question pred.probability
                (b.contract.probability.getD (1 / 2))
                (|pred.probability - b.contract.probability.getD (1 / 2)|) config.minEdge
                (if pred.reasoning = "" then "No reasoning provided" else pred.reasoning))])
    ∧ (config.minEdge ≤ |pred.probability - b.contract.probability.getD (1 / 2)| →
        (handle_new_market config b (.ok text) pr).order
          = some ⟨b.contract.id, config.betAmount,
              if pred.probability - b.contract.probability.getD (1 / 2) > 0 then "YES" else "NO",
              some (min (max pred.probability (1 / 100)) (99 / 100))⟩)
    ∧ (|pred.probability - m.probability.getD (1 / 2)| < config.minEdge →
        (handle_bet_triggered config bd (.ok m) (.ok text) pr).order = none
        ∧ (handle_bet_triggered config bd (.ok m) (.ok text) pr).logs
            = [.Info (.analyzingBetTriggered (m.totalLiquidity.getD 0) m.question),
                .Info (.betTriggeredEdgeTooSmall m.question pred.probability
                  (m.probability.getD (1 / 2))
                  (|pred.probability - m.probability.getD (1 / 2)|) config.minEdge
                  (if pred.reasoning = "" then "No reasoning provided" else pred.reasoning))])
    ∧ (config.minEdge ≤ |pred.probability - m.probability.getD (1 / 2)| →
        (handle_bet_triggered config bd (.ok m) (.ok text) pr).order
          = some ⟨bd.contractId, config.reversionAmount,
              if pred.probability - m.probability.getD (1 / 2) > 0 then "YES" else "NO",
              some (min (max pred.probability (1 / 100)) (99 / 100))⟩) := by
  have hnl : ¬(m.totalLiquidity.getD 0 < config.minLiquidity) := not_lt.mpr hliq
  refine ⟨?_, ?_, ?_, ?_⟩
  · intro hlt
    simp only [one_div] at hlt
    constructor <;> simp [handle_new_market, hparse, hlt]
  · intro hge
    have hlt : ¬(|pred.probability - b.contract.probability.getD (1 / 2)| < config.minEdge) :=
      not_lt.mpr hge
    simp only [one_div] at hlt
    cases pr with
    | ok resp => simp [handle_new_market, hparse, hlt]
    | error e => simp [handle_new_market, hparse, hlt]
  · intro hlt
    simp only [one_div] at hlt
    constructor <;> simp [handle_bet_triggered, hres, hbin, hnl, hparse, hlt]
  · intro hge
    have hlt : ¬(|pred.probability - m.probability.getD (1 / 2)| < config.minEdge) :=
      not_lt.mpr hge
    simp only [one_div] at hlt
    cases pr with
    | ok resp => simp [handle_bet_triggered, hres, hbin, hnl, hparse, hlt]
    | error e => simp [handle_bet_triggered, hres, hbin, hnl, hparse, hlt]

/-- C3 witness at the spec's own numbers: market 40%, predicted 55%,
minimum edge 10% → a YES order at limit 55% in both paths. -/
theorem C3_edge_rule_witness :
    parse_prediction predict55Text = some (.Predict ⟨11 / 20, "x"⟩)
    ∧ (handle_new_market BotConfig.default sampleBroadcast150 (.ok predict55Text)
        (.ok emptyResp)).order = some ⟨"mkt1", 10, "YES", some (11 / 20)⟩
    ∧ (handle_bet_triggered BotConfig.default sampleBet (.ok sampleMarket)
        (.ok predict55Text) (.ok emptyResp)).order
        = some ⟨"mkt1", 25, "YES", some (11 / 20)⟩ := by
  have hc := C3_edge_rule BotConfig.default sampleBroadcast150 sampleBet sampleMarket
    predict55Text (.ok emptyResp) ⟨11 / 20, "x"⟩ (by with_unfolding_all decide)
    (by with_unfolding_all decide) (by with_unfolding_all decide) (by with_unfolding_all decide)
  refine ⟨by with_unfolding_all decide, ?_, ?_⟩
  · have h := hc.2.1 (by with_unfolding_all decide)
    rw [h]
    with_unfolding_all decide
  · have h := hc.2.2.2 (by with_unfolding_all decide)
    rw [h]
    with_unfolding_all decide

/-- C9: when the read loop of an active connection runs through
non-breaking inputs and then hits the 90s staleness timeout, the iteration
emits the staleness `Error`, then `Disconnected`, then sleeps 3 seconds;
and for every connection outcome whatsoever, every iteration of the outer
loop begins with exactly one connection attempt and ends with
`Disconnected` followed by the 3-second sleep — the loop itself never
terminates (it is defined at every `n`). -/
theorem C9_stale_reconnect (outcomes : Nat → ConnOutcome) (n : Nat) (ins : List LoopInput)
    (hpre : ∀ i ∈ ins, (stepInput i).2 = false)
    (hn : outcomes n = .session (ins ++ [.staleTimeout])) :
    run_ws_trace outcomes n
      = [.attemptConnect, .emit .Connected]
        ++ ((ins.flatMap (fun i => (stepInput i).1)).map .emit)
        ++ [.emit (.Error "WS stale — no message for 90s"), .emit .Disconnected, .sleepSecs 3]
    ∧ (∀ m, (run_ws_trace outcomes m).head? = some .attemptConnect)
    ∧ (∀ m, (run_ws_trace outcomes m).count .attemptConnect = 1)
    ∧ (∀ m, ∃ pre, run_ws_trace outcomes m = pre ++ [.emit .Disconnected, .sleepSecs 3]) := by
  refine ⟨?_, ?_, ?_, ?_⟩
  · rw [run_ws_trace, hn]
    simp only [runWsIteration, connLoop_append ins [.staleTimeout] hpre, connLoop, stepInput,
      if_true, List.map_append]
    simp
  · intro m
    cases ho : outcomes m <;> simp [run_ws_trace, runWsIteration, ho]
  · intro m
    cases ho : outcomes m with
    | connectFail e =>
      simp [run_ws_trace, runWsIteration, ho, List.count_cons, List.count_nil]
    | session ins2 =>
      have hz : ((connLoop ins2).map WsAction.emit
          ++ [WsAction.emit .Disconnected, WsAction.sleepSecs 3]).count
            WsAction.attemptConnect = 0 := by
        rw [List.count_eq_zero]
        intro hmem
        rcases List.mem_append.mp hmem with hh | hh
        · obtain ⟨e, _, he⟩ := List.mem_map.mp hh
          exact WsAction.noConfusion he
        · simp at hh
      simp [run_ws_trace, runWsIteration, ho, List.count_cons, hz]
  · intro m
    cases ho : outcomes m with
    | connectFail e =>
      exact ⟨[.attemptConnect, .emit (.Error ("WS error: " ++ e))],
        by simp [run_ws_trace, runWsIteration, ho]⟩
    | session ins2 =>
      exact ⟨.attemptConnect :: .emit .Connected :: (connLoop ins2).map .emit,
        by simp [run_ws_trace, runWsIteration, ho]⟩

/-- C9 witness: a session that immediately goes stale emits `Error` then
`Disconnected`, sleeps 3 seconds, and the trace has exactly one connection
attempt in the iteration. -/
theorem C9_stale_reconnect_witness :
    run_ws_trace (fun _ => ConnOutcome.session [.staleTimeout]) 0
      = [.attemptConnect, .emit .Connected,
          .emit (.Error "WS stale — no message for 90s"), .emit .Disconnected, .sleepSecs 3]
    ∧ (run_ws_trace (fun _ => ConnOutcome.session [.staleTimeout]) 0).count
        WsAction.attemptConnect = 1 := by
  have h := C9_stale_reconnect (fun _ => ConnOutcome.session [.staleTimeout]) 0 []
    (by simp) rfl
  exact ⟨by simpa using h.1, h.2.2.1 0⟩

/-- C7 witness at a concrete resolved market. -/
theorem C7_reversion_silent_witness :
    sampleResolvedMarket.isResolved = true
    ∧ handle_bet_triggered BotConfig.default sampleBet (.ok sampleResolvedMarket)
        (.ok "irrelevant") (.error "unused") = ⟨false, [], none, false⟩ :=
  ⟨by with_unfolding_all decide,
    C7_reversion_silent BotConfig.default sampleBet sampleResolvedMarket
      (.ok "irrelevant") (.error "unused") (Or.inl (by with_unfolding_all decide))⟩

end ManifoldRobot
